import Mathlib

/-!
# Verification of the stock batch-evaluation pipeline

A shallow embedding, in Lean 4, of the core of the `instock` pipeline:
the trading-calendar helpers (`instock/lib/trade_time.py`,
`instock/core/singleton_trade_date.py`), the singleton caches
(`instock/lib/singleton_type.py`, `instock/core/singleton_stock.py`),
the schedule driver (`instock/lib/run_template.py`), the strategy
predicates (`instock/core/strategy/*.py`) and the backtest scorer
(`instock/core/backtest/rate_stats.py`).

Modelling conventions:
* Calendar dates are day numbers in `ℤ`; the ISO `"YYYY-MM-DD"` strings
  the source compares lexicographically are order-isomorphic to day
  numbers, and `datetime.strptime`/`strftime` round-trips are identities
  under this abstraction.
* Prices, volumes and percent values are `ℚ` (the source holds them in
  IEEE doubles; all the comparisons the claims exercise are exact).
  At the few spots where the source can divide by zero, IEEE semantics
  (`inf`/`nan` compare) are spelled out explicitly with an `if`, since
  `ℚ` division by zero yields `0` instead.
* Python functions that can raise are embedded as `Except String _`;
  a `while` loop is embedded as structural recursion on an explicit
  iteration budget, and "the loop terminates" is `∃ fuel, … ≠ none`.
-/

/-- One day's OHLCV bar of an instrument's series, as held in the
pandas frames: columns `date`, `open`, `high`, `low`, `close`,
`volume`, `p_change`.  (`openv` stands for the `open` column, which is
a reserved word in Lean.) -/
structure Bar where
  date : ℤ
  openv : ℚ
  high : ℚ
  low : ℚ
  close : ℚ
  volume : ℚ
  p_change : ℚ
  deriving Repr, DecidableEq

/-- pandas `DataFrame.tail(n)`: the last `n` rows (all rows when the
frame is shorter). -/
def tailN {α : Type} (n : ℕ) (l : List α) : List α :=
  l.drop (l.length - n)

/-- `talib.MA(xs, timeperiod := p)` followed by the source's
`NaN → 0.0` replacement: entry `i` is `0` for `i < p - 1` and the mean
of `xs[i-p+1..i]` afterwards. -/
def sma (p : ℕ) (xs : List ℚ) : List ℚ :=
  (List.range xs.length).map
    (fun i => if i + 1 < p then 0 else ((xs.drop (i + 1 - p)).take p).sum / p)

/-- Round-half-to-even to an integer, the rounding used by `round` in
Python and `numpy.around`. -/
def roundHalfEven (x : ℚ) : ℤ :=
  let f := ⌊x⌋
  let r := x - f
  if r < 1/2 then f
  else if 1/2 < r then f + 1
  else if Even f then f else f + 1

/-- `numpy.around(x, decimals := 2)`. -/
def round2 (x : ℚ) : ℚ :=
  (roundHalfEven (x * 100) : ℚ) / 100

/-- The date-mask every strategy applies first:
`end_date := code_name[0] if date is None else date.strftime(...)`,
then `data.loc[data['date'] <= end_date]`. -/
def maskBars (codeDate : ℤ) (dateArg : Option ℤ) (data : List Bar) : List Bar :=
  let end_date := match dateArg with
    | none => codeDate
    | some d => d
  data.filter (fun b => decide (b.date ≤ end_date))

/-
## Trading calendar (`singleton_trade_date.py` / `trade_time.py`)
-/

/-- Outcome of the external `stockfetch.fetch_stocks_trade_date()`
collaborator (the module is not part of the sources at hand).
Modelled from the spec: `FetchCalendar() -> set<TradingDate>` "may
fail; failures propagate as errors" — so it either returns the set of
trading dates or raises. -/
inductive CalFetch where
  | ok (cal : List ℤ)
  | raise
  deriving Repr, DecidableEq

/-- State of the `stock_trade_date` singleton instance after
`__init__` ran.  `__init__` does `self.data = stf.fetch_stocks_trade_date()`
inside `try/except`; when the fetch raises, the exception is logged
and the `data` attribute is never assigned.  The outer `Option` is
attribute presence (`none` = `data` was never set), the inner value is
what was assigned. -/
def stock_trade_date_init (f : CalFetch) : Option (Option (List ℤ)) :=
  match f with
  | .ok cal => some (some cal)
  | .raise => none

/-- `stock_trade_date.get_data`: `return self.data`.  Reading an
attribute that was never assigned raises `AttributeError`. -/
def stock_trade_date_get_data (s : Option (Option (List ℤ))) :
    Except String (Option (List ℤ)) :=
  match s with
  | none => .error "AttributeError"
  | some v => .ok v

/-- `trade_time.is_trade_date`: fetch the calendar from the singleton;
`None` calendars answer `False`; otherwise test membership. -/
def is_trade_date (s : Option (Option (List ℤ))) (date : ℤ) :
    Except String Bool :=
  match stock_trade_date_get_data s with
  | .error e => .error e
  | .ok none => .ok false
  | .ok (some cal) => .ok (decide (date ∈ cal))

/-- The `while` loop of `get_one_previous_trade_date`: step the date
down one day at a time until it is in the calendar.  `fuel` bounds the
number of iterations; `none` means the loop has not finished within
`fuel` steps. -/
def onePrevLoop (cal : List ℤ) : ℕ → ℤ → Option ℤ
  | 0, _ => none
  | f + 1, d =>
    let t := d - 1
    if t ∈ cal then some t else onePrevLoop cal f t

/-- The `while` loop of `get_next_trade_date`: step the date up one
day at a time until it is in the calendar. -/
def oneNextLoop (cal : List ℤ) : ℕ → ℤ → Option ℤ
  | 0, _ => none
  | f + 1, d =>
    let t := d + 1
    if t ∈ cal then some t else oneNextLoop cal f t

/-- The loop of `get_previous_trade_date(date, count)`, flattened:
each outer iteration is one `get_one_previous_trade_date` walk (here
inlined day-step by day-step), then `count -= 1` and a `count == 0`
break test.  `count` is a Python `int`, so it is `ℤ` and never wraps. -/
def prevCountLoop (cal : List ℤ) : ℕ → ℤ → ℤ → Option ℤ
  | 0, _, _ => none
  | f + 1, d, c =>
    let t := d - 1
    if t ∈ cal then
      if c - 1 = 0 then some t else prevCountLoop cal f t (c - 1)
    else
      prevCountLoop cal f t c

/-- `trade_time.get_one_previous_trade_date`: a `None` calendar
returns the input date unchanged; otherwise run the walking loop. -/
def get_one_previous_trade_date (fuel : ℕ) (s : Option (Option (List ℤ)))
    (date : ℤ) : Except String (Option ℤ) :=
  match stock_trade_date_get_data s with
  | .error e => .error e
  | .ok none => .ok (some date)
  | .ok (some cal) => .ok (onePrevLoop cal fuel date)

/-- `trade_time.get_next_trade_date`. -/
def get_next_trade_date (fuel : ℕ) (s : Option (Option (List ℤ)))
    (date : ℤ) : Except String (Option ℤ) :=
  match stock_trade_date_get_data s with
  | .error e => .error e
  | .ok none => .ok (some date)
  | .ok (some cal) => .ok (oneNextLoop cal fuel date)

/-
## Singleton metaclass (`singleton_type.py`) and the caches built on it
-/

/-- `singleton_type.__call__`: under the class-level lock, create the
instance only if the class has no `_instance` attribute yet, then
return `cls._instance`.  The state is the `_instance` attribute of one
class; the constructor arguments are ignored whenever an instance
already exists. -/
def singleton_call {α β : Type} (init : β → α) (arg : β) (inst : Option α) :
    α × Option α :=
  match inst with
  | some i => (i, some i)
  | none =>
    let i := init arg
    (i, some i)

/-- `stock_data.__init__` on the successful-fetch path:
`self.data = stf.fetch_stocks(date)` (the fetcher is the external
`MarketDataFetcher.FetchSnapshot` collaborator, passed in here). -/
def stock_data_new {α : Type} (fetch : ℤ → α) (date : ℤ) : α :=
  fetch date

/-- `stock_data(date)` — instantiating the snapshot-cache class, which
goes through `singleton_type.__call__`. -/
def stock_data_call {α : Type} (fetch : ℤ → α) (date : ℤ) (inst : Option α) :
    α × Option α :=
  singleton_call (stock_data_new fetch) date inst

/-
## Series-cache population (`singleton_stock.stock_hist_data.__init__`)
-/

/-- The fan-out/collect loop of `stock_hist_data.__init__`: one fetch
task per stock; a task that raises is logged and skipped, a task whose
result is `None` is skipped, any other result is stored under its
stock key.  (The source joins tasks with `as_completed`; the content
of the collected map does not depend on completion order, so the
submission order is used here.) -/
def stock_hist_data_populate {κ σ : Type} (fetch : κ → Except Unit (Option σ))
    (stocks : List κ) : List (κ × σ) :=
  stocks.foldl
    (fun acc k =>
      match fetch k with
      | .error _ => acc
      | .ok none => acc
      | .ok (some s) => acc ++ [(k, s)])
    []

/-- End of `stock_hist_data.__init__`: an empty collected map is
stored as `None`. -/
def stock_hist_data_result {κ σ : Type} (fetch : κ → Except Unit (Option σ))
    (stocks : List κ) : Option (List (κ × σ)) :=
  let m := stock_hist_data_populate fetch stocks
  if m.isEmpty then none else some m

/-
## Schedule driver (`run_template.run_with_args`)
-/

/-- The range-mode loop of `run_with_args` (two command-line dates):
`while run_date <= end_date`, submit one task when
`is_trade_date(run_date)` holds, then `run_date += 1 day`.  Embedded
for a successfully loaded calendar `cal`, walking the
`(end - start + 1)` calendar days of `[start, end]`; the returned list
holds the dates submitted to the executor, in submission order. -/
def rangeWalk (cal : List ℤ) : ℤ → ℕ → List ℤ
  | _, 0 => []
  | d, k + 1 =>
    if d ∈ cal then d :: rangeWalk cal (d + 1) k else rangeWalk cal (d + 1) k

/-- Range mode of `run_with_args`: the dates submitted for the
inclusive range `[start, endD]`. -/
def run_with_args_range (cal : List ℤ) (start endD : ℤ) : List ℤ :=
  rangeWalk cal start (endD - start + 1).toNat

/-- Implicit (no-date) mode of `run_with_args`: which of the two dates
from `get_trade_date_last()` — `run_date` (finalized end-of-day) or
`run_date_nph` (latest available, possibly in-progress) — is passed to
the job function.  The source selects by the job function's *name*:
`run_fun.__name__.startswith('save_nph')` / `'save_after_close'`.
Python `str.startswith` is modelled as a character-list prefix test. -/
def implicit_mode_date (name : String) (run_date run_date_nph : ℤ) : ℤ :=
  if ("save_nph".toList).isPrefixOf name.toList then run_date_nph
  else if ("save_after_close".toList).isPrefixOf name.toList then run_date
  else run_date_nph

/-
## Backtest scorer (`backtest/rate_stats.get_rates`)
-/

/-- The row `get_rates` returns (a pandas `Series` over
`stock_column`): the entry date, the code, then one cell per requested
forward day — a cumulative percent return for each available bar after
the entry bar, `None` past the available data. -/
structure RateRecord where
  start_date : ℤ
  code : ℕ
  days : List (Option ℚ)
  deriving Repr, DecidableEq

/-- `rate_stats.get_rates(code_name, data, stock_column, threshold)`:
`None` data is `None`; restrict to bars with `date >= start_date`,
`head(threshold)`; fewer than two remaining bars is a skip (`None`);
otherwise emit `around(100*(close_i - close_0)/close_0, 2)` for every
bar after the first and pad with `None` up to `len(stock_column)`
total cells (two of which are date and code). -/
def get_rates (start_date : ℤ) (code : ℕ) (data : Option (List Bar))
    (ncols : ℕ) (threshold : ℕ) : Option RateRecord :=
  match data with
  | none => none
  | some rows =>
    let d := (rows.filter (fun b => decide (start_date ≤ b.date))).take threshold
    if d.length ≤ 1 then none
    else
      match d.head? with
      | none => none
      | some b0 =>
        let vals : List (Option ℚ) :=
          ((d.map (fun b => round2 (100 * (b.close - b0.close) / b0.close))).drop 1).map
            (fun q => some q)
        some ⟨start_date, code, vals ++ List.replicate (ncols - (2 + vals.length)) none⟩

/-- Definition following the spec's words (§4.6 BacktestScorer), the
refinement target for the scorer: take the series bars on/after the
entry date, up to `forwardDays + 1` of them; skip when fewer than two
remain; otherwise the cumulative percent return
`round(100*(close_i - close_0)/close_0, 2)` for every bar after the
first, padded with absent values up to `forwardDays` cells. -/
def backtestScorerSpec (entryDate : ℤ) (series : List Bar) (forwardDays : ℕ) :
    Option (List (Option ℚ)) :=
  let fwd := (series.filter (fun b => decide (entryDate ≤ b.date))).take (forwardDays + 1)
  if fwd.length < 2 then none
  else
    match fwd.head? with
    | none => none
    | some b0 =>
      some (((fwd.drop 1).map
          (fun b => some (round2 (100 * (b.close - b0.close) / b0.close)))) ++
        List.replicate (forwardDays - (fwd.length - 1)) none)

/-
## Strategy predicates (`core/strategy/*.py`)
-/

/-- `turtle_trade.check_enter`: mask to the as-of date, fail closed
under `threshold` bars, then compare the last close of the trailing
`threshold`-bar window against a running maximum that starts at `0`. -/
def check_enter (codeDate : ℤ) (data : List Bar) (dateArg : Option ℤ)
    (threshold : ℕ) : Except String Bool :=
  let d := maskBars codeDate dateArg data
  if d.length < threshold then .ok false
  else
    let t := tailN threshold d
    let max_price := t.foldl (fun m b => if m < b.close then b.close else m) 0
    match t.getLast? with
    | none => .error "single positional indexer is out-of-bounds"
    | some last => .ok (decide (max_price ≤ last.close))

/-- `enter.check_volume`: mask, fail closed under `threshold` bars;
last-bar `p_change`/candle checks; 5-bar volume moving average as a
column over the *whole* masked frame; `tail(threshold+1)` (fail closed
when shorter); turnover floor on the last bar; then the volume ratio
against the `vol_ma5` of the last row of `head(threshold)` — i.e. the
5-bar average ending one bar *before* the last.  `mean_vol = 0` is
spelled out with IEEE float semantics (`x/0` is `±inf` or `nan`). -/
def check_volume (codeDate : ℤ) (data : List Bar) (dateArg : Option ℤ)
    (threshold : ℕ) : Except String Bool :=
  let d := maskBars codeDate dateArg data
  if d.length < threshold then .ok false
  else
    match d.getLast? with
    | none => .error "single positional indexer is out-of-bounds"
    | some lastBar =>
      if lastBar.p_change < 2 ∨ lastBar.close < lastBar.openv then .ok false
      else
        let rows := d.zip (sma 5 (d.map (fun b => b.volume)))
        let t := tailN (threshold + 1) rows
        if t.length < threshold + 1 then .ok false
        else
          match t.getLast? with
          | none => .error "single positional indexer is out-of-bounds"
          | some lastRow =>
            let amount := lastRow.1.close * lastRow.1.volume
            if amount < 200000000 then .ok false
            else
              match (t.take threshold).getLast? with
              | none => .error "single positional indexer is out-of-bounds"
              | some prevRow =>
                let mean_vol := prevRow.2
                if mean_vol = 0 then .ok (decide (0 < lastRow.1.volume))
                else .ok (decide (2 ≤ lastRow.1.volume / mean_vol))

/-- `climax_limitdown.check`: same frame plumbing as `check_volume`,
with a limit-down gate (`p_change > -9.5` fails) and a volume ratio
floor of `4`. -/
def climax_limitdown_check (codeDate : ℤ) (data : List Bar)
    (dateArg : Option ℤ) (threshold : ℕ) : Except String Bool :=
  let d := maskBars codeDate dateArg data
  if d.length < threshold then .ok false
  else
    match d.getLast? with
    | none => .error "single positional indexer is out-of-bounds"
    | some lastBar =>
      if (-(95/10) : ℚ) < lastBar.p_change then .ok false
      else
        let rows := d.zip (sma 5 (d.map (fun b => b.volume)))
        let t := tailN (threshold + 1) rows
        if t.length < threshold + 1 then .ok false
        else
          match t.getLast? with
          | none => .error "single positional indexer is out-of-bounds"
          | some lastRow =>
            let amount := lastRow.1.close * lastRow.1.volume
            if amount < 200000000 then .ok false
            else
              match (t.take threshold).getLast? with
              | none => .error "single positional indexer is out-of-bounds"
              | some prevRow =>
                let mean_vol := prevRow.2
                if mean_vol = 0 then .ok (decide (0 < lastRow.1.volume))
                else .ok (decide (4 ≤ lastRow.1.volume / mean_vol))

/-- `keep_increasing.check`: 30-bar moving average of close as a
column, `tail(threshold)`, then the strictly increasing probe at rows
`0`, `round(threshold/3)`, `round(2*threshold/3)`, `-1` with the final
average at least `1.2×` the first.  Out-of-range `iloc` raises. -/
def keep_increasing_check (codeDate : ℤ) (data : List Bar)
    (dateArg : Option ℤ) (threshold : ℕ) : Except String Bool :=
  let d := maskBars codeDate dateArg data
  if d.length < threshold then .ok false
  else
    let rows := d.zip (sma 30 (d.map (fun b => b.close)))
    let t := tailN threshold rows
    let step1 := (roundHalfEven ((threshold : ℚ) / 3)).toNat
    let step2 := (roundHalfEven ((threshold : ℚ) * 2 / 3)).toNat
    match t.head?, t.get? step1, t.get? step2, t.getLast? with
    | some r0, some r1, some r2, some rl =>
      .ok (decide (r0.2 < r1.2 ∧ r1.2 < r2.2 ∧ r2.2 < rl.2 ∧ 12/10 * r0.2 < rl.2))
    | _, _, _, _ => .error "single positional indexer is out-of-bounds"

/-- `parking_apron.check_internal`: the three bars after the limit-up
bar must hold above its close, day 1 with an open/close ratio in
(0.97, 1.03), days 2–3 additionally with `p_change` in (−5, 5).
Division `close/open` by zero follows IEEE (`±inf`/`nan`), and every
such outcome fails the two-sided band, which is also what `ℚ`'s
`x/0 = 0` yields — so plain division is faithful here. -/
def parking_check_internal (t : List Bar) (limitPrice : ℚ) (limitDate : ℤ) :
    Except String Bool :=
  let le := (t.filter (fun b => decide (limitDate < b.date))).take 3
  if le.length < 3 then .ok false
  else
    match le.head? with
    | none => .error "single positional indexer is out-of-bounds"
    | some day1 =>
      let day23 := tailN 2 le
      if ¬(limitPrice < day1.close ∧ limitPrice < day1.openv ∧
          97/100 < day1.close / day1.openv ∧ day1.close / day1.openv < 103/100) then
        .ok false
      else
        .ok (day23.all (fun b =>
          decide (97/100 < b.close / b.openv) && decide (b.close / b.openv < 103/100) &&
          decide (-5 < b.p_change) && decide (b.p_change < 5) &&
          decide (limitPrice < b.close) && decide (limitPrice < b.openv)))

/-- The scan loop of `parking_apron.check`: find a bar of the tail
with `p_change > 9.5` for which `turtle_trade.check_enter` (anchored
at that bar's date, over the *unmasked* original frame) holds and
`check_internal` accepts the three following bars. -/
def parking_loop (codeDate : ℤ) (origin : List Bar) (threshold : ℕ)
    (t : List Bar) : List Bar → Except String Bool
  | [] => .ok false
  | b :: rest =>
    if (95/10 : ℚ) < b.p_change then
      match check_enter codeDate origin (some b.date) threshold with
      | .error e => .error e
      | .ok true =>
        match parking_check_internal t b.close b.date with
        | .error e => .error e
        | .ok true => .ok true
        | .ok false => parking_loop codeDate origin threshold t rest
      | .ok false => parking_loop codeDate origin threshold t rest
    else parking_loop codeDate origin threshold t rest

/-- `parking_apron.check` (threshold defaults to 15). -/
def parking_apron_check (codeDate : ℤ) (data : List Bar)
    (dateArg : Option ℤ) (threshold : ℕ) : Except String Bool :=
  let d := maskBars codeDate dateArg data
  if d.length < threshold then .ok false
  else
    let t := tailN threshold d
    parking_loop codeDate data threshold t t

/-- The consecutive-limit-up scan of `high_tight_flag.check_high_tight`:
`previous` starts at `0.0`; a bar with `p_change ≥ 9.5` succeeds when
the previous bar also had `p_change ≥ 9.5`, else it is remembered;
any other bar resets `previous` to `0.0`. -/
def twoConsecLoop : ℚ → List ℚ → Bool
  | _, [] => false
  | prev, p :: rest =>
    if (95/10 : ℚ) ≤ p then
      if (95/10 : ℚ) ≤ prev then true else twoConsecLoop p rest
    else twoConsecLoop 0 rest

/-- `high_tight_flag.check_high_tight`: requires the auxiliary
`istop` input, then ≥ `threshold` bars; inside the
`tail(threshold).tail(24).head(14)` slice, last-bar high over the
slice's lowest low must reach `1.9`, and two consecutive bars must
have `p_change ≥ 9.5`.  `numpy.min` of an empty slice raises; a zero
`low` makes `high/low` IEEE `±inf`/`nan`, spelled out below
(`high > 0 → inf`, passes; `high = 0 → nan`, passes the `< 1.9` test
vacuously; `high < 0 → -inf`, fails). -/
def check_high_tight (codeDate : ℤ) (data : List Bar) (dateArg : Option ℤ)
    (threshold : ℕ) (istop : Bool) : Except String Bool :=
  if !istop then .ok false
  else
    let d := maskBars codeDate dateArg data
    if d.length < threshold then .ok false
    else
      let t := (tailN 24 (tailN threshold d)).take 14
      match (t.map (fun b => b.low)).min? with
      | none => .error "zero-size array to reduction operation"
      | some low =>
        match t.getLast? with
        | none => .error "single positional indexer is out-of-bounds"
        | some lastB =>
          let fails :=
            if low = 0 then decide (lastB.high < 0)
            else decide (lastB.high / low < 19/10)
          if fails then .ok false
          else .ok (twoConsecLoop 0 (t.map (fun b => b.p_change)))

/-- `low_atr.check_low_increase` (`ma_long` defaults to 250,
`threshold` to 10): mean absolute daily percent change over the
trailing `threshold` bars below 10, and the window's
high-low spread over its low above 1.1.  The high/low tracking uses
the source's `if/elif`: a bar that raises the high never updates the
low.  A zero window-low makes `(high-low)/low` IEEE: positive high
gives `inf` (accept), zero gives `nan`, negative gives `-inf` (both
reject).  An empty window would be a Python-float `ZeroDivisionError`. -/
def check_low_increase (codeDate : ℤ) (data : List Bar) (dateArg : Option ℤ)
    (ma_long : ℕ) (threshold : ℕ) : Except String Bool :=
  let d := maskBars codeDate dateArg data
  if d.length < ma_long then .ok false
  else
    let t := tailN threshold d
    if t.length < threshold then .ok false
    else if t.length = 0 then .error "float division by zero"
    else
      let st := t.foldl
        (fun (acc : ℚ × ℚ × ℚ) b =>
          let total :=
            if 0 < b.p_change then acc.1 + |b.p_change|
            else if b.p_change < 0 then acc.1 + |b.p_change|
            else acc.1
          let isHi := acc.2.1 < b.close
          let hi := if isHi then b.close else acc.2.1
          let lo := if isHi then acc.2.2
            else if b.close < acc.2.2 then b.close else acc.2.2
          (total, hi, lo))
        (0, 0, 1000000)
      let atr := st.1 / (t.length : ℚ)
      if 10 < atr then .ok false
      else
        let hi := st.2.1
        let lo := st.2.2
        if lo = 0 then .ok (decide (0 < hi))
        else .ok (decide (11/10 < (hi - lo) / lo))

/-- IEEE-faithful test `num/den*100 < bound` for the drop checks of
`low_backtrace_increase.check`, where `bound < 0`: when `den = 0` the
quotient is `±inf` (or `nan` at `0/0`), so the test holds exactly when
`num < 0`. -/
def pctDropLT (num den bound : ℚ) : Bool :=
  if den = 0 then decide (num < 0) else decide (num / den * 100 < bound)

/-- The per-bar scan of `low_backtrace_increase.check`: reject on a
one-day drop over 7% (by `p_change` or open-to-close), or a two-day
cumulative drop over 10% (by `p_change` sum or against the previous
open).  `previous` seeds are `100.0` and `-1000000.0`. -/
def low_backtrace_loop : ℚ → ℚ → List Bar → Bool
  | _, _, [] => true
  | prevP, prevO, b :: rest =>
    if b.p_change < -7 ∨ pctDropLT (b.close - b.openv) b.openv (-7) = true ∨
        prevP + b.p_change < -10 ∨ pctDropLT (b.close - prevO) prevO (-10) = true then
      false
    else low_backtrace_loop b.p_change b.openv rest

/-- `low_backtrace_increase.check`: over the trailing `threshold`
bars, total rise of at least 60% and no deep drop.  A zero first close
makes the rise ratio IEEE: `diff > 0 → inf` and `diff = 0 → nan` both
pass the `< 0.6` rejection, `diff < 0 → -inf` rejects. -/
def low_backtrace_increase_check (codeDate : ℤ) (data : List Bar)
    (dateArg : Option ℤ) (threshold : ℕ) : Except String Bool :=
  let d := maskBars codeDate dateArg data
  if d.length < threshold then .ok false
  else
    let t := tailN threshold d
    match t.getLast?, t.head? with
    | some lastB, some firstB =>
      let rejected :=
        if firstB.close = 0 then decide (lastB.close - firstB.close < 0)
        else decide ((lastB.close - firstB.close) / firstB.close < 6/10)
      if rejected then .ok false
      else .ok (low_backtrace_loop 100 (-1000000) t)
    | _, _ => .error "single positional indexer is out-of-bounds"

/-- The breakout scan of `breakthrough_platform.check`: the first bar
of the tail with `open < MA60 ≤ close` whose date also satisfies
`enter.check_volume` (on the unmasked original frame) is the
breakthrough bar; errors from the inner predicate propagate. -/
def breakthrough_loop (codeDate : ℤ) (origin : List Bar) (threshold : ℕ) :
    List (Bar × ℚ) → Except String (Option ℤ)
  | [] => .ok none
  | r :: rest =>
    if r.1.openv < r.2 ∧ r.2 ≤ r.1.close then
      match check_volume codeDate origin (some r.1.date) threshold with
      | .error e => .error e
      | .ok true => .ok (some r.1.date)
      | .ok false => breakthrough_loop codeDate origin threshold rest
    else breakthrough_loop codeDate origin threshold rest

/-- `breakthrough_platform.check`: 60-bar moving average column over
the masked frame, `tail(threshold)`, find the breakout bar, then every
earlier tail bar with positive MA60 must satisfy
`-0.05 < (MA60 - close)/MA60 < 0.2` (the filter guarantees a nonzero
divisor). -/
def breakthrough_platform_check (codeDate : ℤ) (data : List Bar)
    (dateArg : Option ℤ) (threshold : ℕ) : Except String Bool :=
  let d := maskBars codeDate dateArg data
  if d.length < threshold then .ok false
  else
    let rows := d.zip (sma 60 (d.map (fun b => b.close)))
    let t := tailN threshold rows
    match breakthrough_loop codeDate data threshold t with
    | .error e => .error e
    | .ok none => .ok false
    | .ok (some bd) =>
      let front := t.filter (fun r => decide (r.1.date < bd) && decide (0 < r.2))
      .ok (front.all (fun r =>
        decide (-(5/100) < (r.2 - r.1.close) / r.2) &&
        decide ((r.2 - r.1.close) / r.2 < 2/10)))

/-- The back-segment scan of `backtrace_ma250.check`: every bar on or
after the highest-close date must close at or above MA250, while
tracking the lowest close of the segment as `(close, volume, date)`
(date is `none` while the `''` seed is in place). -/
def ma250_endloop : (ℚ × ℚ × Option ℤ) → List (Bar × ℚ) →
    Option (ℚ × ℚ × Option ℤ)
  | recent, [] => some recent
  | recent, r :: rest =>
    if r.1.close < r.2 then none
    else
      ma250_endloop
        (if r.1.close < recent.1 then (r.1.close, r.1.volume, some r.1.date)
         else recent)
        rest

/-- `backtrace_ma250.check`: needs 250 bars for the MA250 column;
over the `threshold`-bar tail, track the highest- and lowest-close
bars with the source's `if/elif` (seeds `[0, 0, '']` and
`[1000000, 0, '']`); reject when either tracked volume is still `0`;
the front segment must cross MA250 from below to above, the back
segment must hold above MA250; the back-segment low must come 10–50
calendar days after the high, on at most half the volume... precisely:
`high_volume/low_volume > 2` and `low_close/high_close < 0.8`, both
with IEEE zero-division spelled out.  A back segment that never
updates the low leaves the `''` seed, and `strptime('')` raises. -/
def backtrace_ma250_check (codeDate : ℤ) (data : List Bar)
    (dateArg : Option ℤ) (threshold : ℕ) : Except String Bool :=
  let d := maskBars codeDate dateArg data
  if d.length < 250 then .ok false
  else
    let rows := d.zip (sma 250 (d.map (fun b => b.close)))
    let t := tailN threshold rows
    let hl := t.foldl
      (fun (acc : (ℚ × ℚ × ℤ) × (ℚ × ℚ × ℤ)) r =>
        if acc.1.1 < r.1.close then ((r.1.close, r.1.volume, r.1.date), acc.2)
        else if r.1.close < acc.2.1 then (acc.1, (r.1.close, r.1.volume, r.1.date))
        else acc)
      ((0, 0, 0), (1000000, 0, 0))
    let hi := hl.1
    let lo := hl.2
    if lo.2.1 = 0 ∨ hi.2.1 = 0 then .ok false
    else
      let front := t.filter (fun r => decide (r.1.date < hi.2.2))
      let endSeg := t.filter (fun r => decide (hi.2.2 ≤ r.1.date))
      if front.isEmpty then .ok false
      else
        match front.head?, front.getLast? with
        | some f0, some fl =>
          if ¬(f0.1.close < f0.2 ∧ fl.2 < fl.1.close) then .ok false
          else
            match ma250_endloop (1000000, 0, none) endSeg with
            | none => .ok false
            | some recent =>
              match recent.2.2 with
              | none => .error "time data does not match format"
              | some lowDate =>
                let diff := lowDate - hi.2.2
                if ¬(10 ≤ diff ∧ diff ≤ 50) then .ok false
                else
                  let volOK :=
                    if recent.2.1 = 0 then decide (0 < hi.2.1)
                    else decide (2 < hi.2.1 / recent.2.1)
                  let backOK :=
                    if hi.1 = 0 then decide (recent.1 < 0)
                    else decide (recent.1 / hi.1 < 8/10)
                  if ¬(volOK = true ∧ backOK = true) then .ok false
                  else .ok true
        | _, _ => .error "single positional indexer is out-of-bounds"

/-
## Helper lemmas
-/

/-- Membership in the collected map of `stock_hist_data.__init__`:
an entry is present iff it was in the accumulator already or its key
was submitted and its fetch returned an actual series. -/
theorem hist_populate_mem {κ σ : Type} (fetch : κ → Except Unit (Option σ))
    (l : List κ) (acc : List (κ × σ)) (x : κ × σ) :
    x ∈ l.foldl
        (fun acc k =>
          match fetch k with
          | .error _ => acc
          | .ok none => acc
          | .ok (some s) => acc ++ [(k, s)])
        acc ↔
      x ∈ acc ∨ (x.1 ∈ l ∧ fetch x.1 = .ok (some x.2)) := by
  induction l generalizing acc with
  | nil => simp
  | cons h tl ih =>
    rw [List.foldl_cons, ih]
    cases hf : fetch h with
    | error e =>
      simp only [List.mem_cons]
      constructor
      · rintro (hx | ⟨hmem, hP⟩)
        · exact Or.inl hx
        · exact Or.inr ⟨Or.inr hmem, hP⟩
      · rintro (hx | ⟨(rfl | hmem), hP⟩)
        · exact Or.inl hx
        · rw [hP] at hf; cases hf
        · exact Or.inr ⟨hmem, hP⟩
    | ok v =>
      cases v with
      | none =>
        simp only [List.mem_cons]
        constructor
        · rintro (hx | ⟨hmem, hP⟩)
          · exact Or.inl hx
          · exact Or.inr ⟨Or.inr hmem, hP⟩
        · rintro (hx | ⟨(rfl | hmem), hP⟩)
          · exact Or.inl hx
          · rw [hP] at hf; cases hf
          · exact Or.inr ⟨hmem, hP⟩
      | some s =>
        simp only [List.mem_cons, List.mem_append, List.mem_singleton,
          List.not_mem_nil, or_false]
        constructor
        · rintro ((hx | rfl) | ⟨hmem, hP⟩)
          · exact Or.inl hx
          · exact Or.inr ⟨Or.inl rfl, hf⟩
          · exact Or.inr ⟨Or.inr hmem, hP⟩
        · rintro (hx | ⟨(rfl | hmem), hP⟩)
          · exact Or.inl (Or.inl hx)
          · rw [hP] at hf
            cases hf
            exact Or.inl (Or.inr Prod.mk.eta.symm)
          · exact Or.inr ⟨hmem, hP⟩

/-
## Claims
-/

/-- C1, counterexample.  The claim says a later `stock_data(d2)` call,
after the cache was populated for `d1 ≠ d2`, "fetches and returns
d2's own data".  With the (external) snapshot fetcher instantiated as
the identity on dates, populating for date `1` and then requesting
date `2` returns `1`'s snapshot, not `2`'s: `singleton_type.__call__`
keys the instance on the class alone and ignores the new argument. -/
theorem snapshot_cache_not_per_date_counterexample :
    (stock_data_call (fun d : ℤ => d) 2 (stock_data_call (fun d : ℤ => d) 1 none).2).1 = 1 ∧
    (stock_data_call (fun d : ℤ => d) 2 (stock_data_call (fun d : ℤ => d) 1 none).2).1 ≠ 2 := by
  exact ⟨rfl, by decide⟩

/-- C1, amended.  The singleton cache is global per class, not keyed
by date: once an instance exists for `d1`, a request for any `d2`
returns the `d1` instance (data fetched for `d1`) and leaves the
stored instance unchanged; no fetch for `d2` ever happens. -/
theorem snapshot_cache_global_singleton {α : Type} (fetch : ℤ → α) (d1 d2 : ℤ) :
    (stock_data_call fetch d2 (stock_data_call fetch d1 none).2).1 = fetch d1 ∧
    (stock_data_call fetch d2 (stock_data_call fetch d1 none).2).2 = some (fetch d1) :=
  ⟨rfl, rfl⟩

/-- C2.  When the calendar fetch raises, `stock_trade_date.__init__`
swallows the exception without assigning `self.data`, so every
subsequent lookup raises `AttributeError` out of `get_data` instead of
failing closed: `is_trade_date` does not return `False`, and the
walking functions do not return their input — all three propagate the
error, for every date. -/
theorem calendar_failure_raises_attribute_error :
    (∀ d : ℤ, is_trade_date (stock_trade_date_init .raise) d = .error "AttributeError") ∧
    (∀ (fuel : ℕ) (d : ℤ),
      get_one_previous_trade_date fuel (stock_trade_date_init .raise) d =
        .error "AttributeError") ∧
    (∀ (fuel : ℕ) (d : ℤ),
      get_next_trade_date fuel (stock_trade_date_init .raise) d =
        .error "AttributeError") :=
  ⟨fun _ => rfl, fun _ _ => rfl, fun _ _ => rfl⟩

/-- C8, counterexample.  In implicit mode the resolved date depends on
the job function's *name*: with finalized date `10` and
latest-available date `11`, a job named `save_after_close_data`
receives `10` while a job named `save_daily_data` receives `11` — the
same pair of resolved dates, different names, different outcome, so
the selection is inferred from the name (there is no declared job-kind
input at all in `run_with_args`). -/
theorem implicit_mode_name_dependent_counterexample :
    implicit_mode_date "save_after_close_data" 10 11 = 10 ∧
    implicit_mode_date "save_daily_data" 10 11 = 11 ∧
    (10 : ℤ) ≠ 11 := by
  exact ⟨rfl, rfl, by decide⟩

/-- C8, amended.  The implicit-mode date is selected by the job
function's name prefix: names starting with `save_after_close` get the
finalized end-of-day date, every other name (including the `save_nph`
prefix) gets the latest-available date.  (The two recognised prefixes
are incompatible, so the first test never shadows the second.) -/
theorem implicit_mode_name_prefix_selection (name : String) (rd rdn : ℤ) :
    implicit_mode_date name rd rdn =
      if ("save_after_close".toList).isPrefixOf name.toList then rd else rdn := by
  unfold implicit_mode_date
  by_cases h1 : ("save_nph".toList).isPrefixOf name.toList = true
  · have h2 : ¬ (("save_after_close".toList).isPrefixOf name.toList = true) := by
      intro hcontra
      have h1' := List.isPrefixOf_iff_prefix.mp h1
      have h2' := List.isPrefixOf_iff_prefix.mp hcontra
      have h3 := List.prefix_of_prefix_length_le h1' h2' (by decide)
      exact absurd (List.isPrefixOf_iff_prefix.mpr h3) (by decide)
    rw [if_pos h1, if_neg h2]
  · rw [if_neg h1]

/-- C9.  During series-cache population, an instrument whose fetch
raises is absent from the collected map, and every instrument whose
fetch returns an actual (non-`None`) series is present — one
instrument's failure never removes a sibling's entry. -/
theorem hist_fetch_failure_isolated {κ σ : Type}
    (fetch : κ → Except Unit (Option σ)) (stocks : List κ) (kbad : κ)
    (hbad : fetch kbad = .error ()) :
    (∀ s, (kbad, s) ∉ stock_hist_data_populate fetch stocks) ∧
    (∀ k s, k ∈ stocks → fetch k = .ok (some s) →
      (k, s) ∈ stock_hist_data_populate fetch stocks) := by
  unfold stock_hist_data_populate
  constructor
  · intro s hmem
    rw [hist_populate_mem] at hmem
    rcases hmem with h | ⟨-, hP⟩
    · simp at h
    · simp only at hP
      rw [hbad] at hP
      cases hP
  · intro k s hk hfk
    rw [hist_populate_mem]
    exact Or.inr ⟨hk, hfk⟩

/-- A concrete fetcher for the C9 witness: instrument `0`'s fetch
raises, every other instrument `k` fetches a series `k`. -/
def c9fetch : ℕ → Except Unit (Option ℕ) :=
  fun k => if k = 0 then .error () else .ok (some k)

/-- Witness for C9 at a concrete batch `[0, 1, 2]` where `0`'s fetch
raises: `0` is absent and `1`, `2` are present. -/
theorem hist_fetch_failure_isolated_witness :
    (∀ s, (0, s) ∉ stock_hist_data_populate c9fetch [0, 1, 2]) ∧
    (1, 1) ∈ stock_hist_data_populate c9fetch [0, 1, 2] ∧
    (2, 2) ∈ stock_hist_data_populate c9fetch [0, 1, 2] := by
  have h := hist_fetch_failure_isolated c9fetch [0, 1, 2] 0 rfl
  exact ⟨h.1, h.2 1 1 (by decide) rfl, h.2 2 2 (by decide) rfl⟩

/-- Tasks submitted by the range walk, counted per date: one when the
date lies in `[start, start + k)` and is a trading day, none
otherwise. -/
theorem rangeWalk_count (cal : List ℤ) (dd : ℤ) :
    ∀ (k : ℕ) (start : ℤ),
      (rangeWalk cal start k).count dd =
        if start ≤ dd ∧ dd < start + (k : ℤ) ∧ dd ∈ cal then 1 else 0 := by
  intro k
  induction k with
  | zero =>
    intro start
    simp only [rangeWalk, List.count_nil]
    rw [eq_comm, if_neg]
    rintro ⟨h1, h2, -⟩
    omega
  | succ k ih =>
    intro start
    simp only [rangeWalk]
    by_cases hc : start ∈ cal
    · rw [if_pos hc, List.count_cons, ih]
      by_cases hm : dd ∈ cal
      · simp only [hm, and_true, beq_iff_eq]
        split_ifs <;> omega
      · have hne : start ≠ dd := fun h => hm (h ▸ hc)
        simp only [hm, and_false, if_false, beq_iff_eq]
        split_ifs <;> omega
    · rw [if_neg hc, ih]
      by_cases hm : dd ∈ cal
      · have hne : start ≠ dd := fun h => hc (h ▸ hm)
        simp only [hm, and_true]
        split_ifs <;> omega
      · simp only [hm, and_false, if_false]

/-- C7.  In range mode the driver walks every calendar day of the
inclusive range `[start, end]` and submits exactly one task per
trading day in the range and no task for any other date; in
particular the 10-day range `[1, 10]` over a calendar holding the 6
trading days `1, 2, 3, 4, 7, 8` submits exactly 6 tasks. -/
theorem range_mode_submits_trading_days :
    (∀ (cal : List ℤ) (start endD dd : ℤ),
      (run_with_args_range cal start endD).count dd =
        if start ≤ dd ∧ dd ≤ endD ∧ dd ∈ cal then 1 else 0) ∧
    (run_with_args_range [1, 2, 3, 4, 7, 8] 1 10).length = 6 := by
  constructor
  · intro cal start endD dd
    unfold run_with_args_range
    rw [rangeWalk_count]
    by_cases h : start ≤ endD
    · have hb : start + ((endD - start + 1).toNat : ℤ) = endD + 1 := by omega
      have hiff : (start ≤ dd ∧ dd < start + ((endD - start + 1).toNat : ℤ) ∧ dd ∈ cal) ↔
          (start ≤ dd ∧ dd ≤ endD ∧ dd ∈ cal) := by
        constructor <;> rintro ⟨a, b, c⟩ <;> exact ⟨a, by omega, c⟩
      rw [if_congr hiff rfl rfl]
    · have h0 : (endD - start + 1).toNat = 0 := by omega
      rw [h0]
      rw [if_neg (by rintro ⟨h1, h2, -⟩; simp at h2; omega),
        if_neg (by rintro ⟨h1, h2, -⟩; omega)]
  · rfl

/-- The downward walk never finishes when the calendar holds no date
strictly before the start. -/
theorem onePrevLoop_no_earlier (cal : List ℤ) :
    ∀ (f : ℕ) (d : ℤ), (∀ t ∈ cal, ¬ t < d) → onePrevLoop cal f d = none := by
  intro f
  induction f with
  | zero => intro d _; rfl
  | succ f ih =>
    intro d h
    simp only [onePrevLoop]
    rw [if_neg (fun hmem => h (d - 1) hmem (by omega))]
    exact ih (d - 1) (fun t ht hlt => h t ht (by omega))

/-- The downward walk finishes within `k` steps when the calendar
holds a date strictly before the start, at most `k` days earlier. -/
theorem onePrevLoop_reaches (cal : List ℤ) :
    ∀ (k : ℕ) (d : ℤ), (∃ t ∈ cal, t < d ∧ d - t ≤ (k : ℤ)) →
      (onePrevLoop cal k d).isSome := by
  intro k
  induction k with
  | zero =>
    rintro d ⟨t, -, h1, h2⟩
    exact absurd h1 (by omega)
  | succ k ih =>
    rintro d ⟨t, ht, h1, h2⟩
    simp only [onePrevLoop]
    by_cases hmem : d - 1 ∈ cal
    · rw [if_pos hmem]
      rfl
    · rw [if_neg hmem]
      have hne : t ≠ d - 1 := fun he => hmem (he ▸ ht)
      exact ih (d - 1) ⟨t, ht, by omega, by omega⟩

/-- The upward walk never finishes when the calendar holds no date
strictly after the start. -/
theorem oneNextLoop_no_later (cal : List ℤ) :
    ∀ (f : ℕ) (d : ℤ), (∀ t ∈ cal, ¬ d < t) → oneNextLoop cal f d = none := by
  intro f
  induction f with
  | zero => intro d _; rfl
  | succ f ih =>
    intro d h
    simp only [oneNextLoop]
    rw [if_neg (fun hmem => h (d + 1) hmem (by omega))]
    exact ih (d + 1) (fun t ht hlt => h t ht (by omega))

/-- The upward walk finishes within `k` steps when the calendar holds
a date strictly after the start, at most `k` days later. -/
theorem oneNextLoop_reaches (cal : List ℤ) :
    ∀ (k : ℕ) (d : ℤ), (∃ t ∈ cal, d < t ∧ t - d ≤ (k : ℤ)) →
      (oneNextLoop cal k d).isSome := by
  intro k
  induction k with
  | zero =>
    rintro d ⟨t, -, h1, h2⟩
    exact absurd h1 (by omega)
  | succ k ih =>
    rintro d ⟨t, ht, h1, h2⟩
    simp only [oneNextLoop]
    by_cases hmem : d + 1 ∈ cal
    · rw [if_pos hmem]
      rfl
    · rw [if_neg hmem]
      have hne : t ≠ d + 1 := fun he => hmem (he ▸ ht)
      exact ih (d + 1) ⟨t, ht, by omega, by omega⟩

/-- `get_previous_trade_date`'s loop never exits when `count ≤ 0`:
the break test `count == 0` is checked only after a decrement, so a
non-positive count is decremented past zero forever. -/
theorem prevCountLoop_nonpos (cal : List ℤ) :
    ∀ (f : ℕ) (d c : ℤ), c ≤ 0 → prevCountLoop cal f d c = none := by
  intro f
  induction f with
  | zero => intros; rfl
  | succ f ih =>
    intro d c hc
    simp only [prevCountLoop]
    by_cases hmem : d - 1 ∈ cal
    · rw [if_pos hmem, if_neg (by omega : ¬ c - 1 = 0)]
      exact ih (d - 1) (c - 1) (by omega)
    · rw [if_neg hmem]
      exact ih (d - 1) c hc

/-- `get_previous_trade_date`'s loop never exits when the calendar
holds no date strictly before the input, for any count. -/
theorem prevCountLoop_no_earlier (cal : List ℤ) :
    ∀ (f : ℕ) (d : ℤ), (∀ t ∈ cal, ¬ t < d) →
      ∀ c, prevCountLoop cal f d c = none := by
  intro f
  induction f with
  | zero => intros; rfl
  | succ f ih =>
    intro d h c
    simp only [prevCountLoop]
    rw [if_neg (fun hmem => h (d - 1) hmem (by omega))]
    exact ih (d - 1) (fun t ht hlt => h t ht (by omega)) c

/-- C10.  For a loaded non-empty calendar: the
`get_one_previous_trade_date` walk terminates iff some trading date
lies strictly before the input, the `get_next_trade_date` walk
terminates iff some trading date lies strictly after the input, and
the `get_previous_trade_date(date, count)` loop never exits when
`count ≤ 0` or when no trading date lies strictly before the input. -/
theorem calendar_walk_termination :
    (∀ (cal : List ℤ) (d : ℤ), cal ≠ [] →
      ((∃ f, (onePrevLoop cal f d).isSome) ↔ ∃ t ∈ cal, t < d)) ∧
    (∀ (cal : List ℤ) (d : ℤ), cal ≠ [] →
      ((∃ f, (oneNextLoop cal f d).isSome) ↔ ∃ t ∈ cal, d < t)) ∧
    (∀ (cal : List ℤ) (f : ℕ) (d c : ℤ), c ≤ 0 →
      prevCountLoop cal f d c = none) ∧
    (∀ (cal : List ℤ) (f : ℕ) (d c : ℤ), (¬ ∃ t ∈ cal, t < d) →
      prevCountLoop cal f d c = none) := by
  refine ⟨?_, ?_, ?_, ?_⟩
  · intro cal d _
    constructor
    · rintro ⟨f, hf⟩
      by_contra hno
      push_neg at hno
      rw [onePrevLoop_no_earlier cal f d (fun t ht => not_lt.mpr (hno t ht))] at hf
      cases hf
    · rintro ⟨t, ht, hlt⟩
      exact ⟨(d - t).toNat, onePrevLoop_reaches cal (d - t).toNat d
        ⟨t, ht, hlt, by omega⟩⟩
  · intro cal d _
    constructor
    · rintro ⟨f, hf⟩
      by_contra hno
      push_neg at hno
      rw [oneNextLoop_no_later cal f d (fun t ht => not_lt.mpr (hno t ht))] at hf
      cases hf
    · rintro ⟨t, ht, hlt⟩
      exact ⟨(t - d).toNat, oneNextLoop_reaches cal (t - d).toNat d
        ⟨t, ht, hlt, by omega⟩⟩
  · intro cal f d c hc
    exact prevCountLoop_nonpos cal f d c hc
  · intro cal f d c hno
    push_neg at hno
    exact prevCountLoop_no_earlier cal f d (fun t ht => not_lt.mpr (hno t ht)) c

/-- Witness for C10, at the one-date calendar `[5]`: walking down from
`10` terminates, walking up from `1` terminates, and the counted walk
loops forever with `count = 0` or with no earlier trading date. -/
theorem calendar_walk_termination_witness :
    (∃ f, (onePrevLoop [5] f 10).isSome) ∧
    (∃ f, (oneNextLoop [5] f 1).isSome) ∧
    prevCountLoop [5] 7 10 0 = none ∧
    prevCountLoop [99] 7 10 3 = none := by
  refine ⟨?_, ?_, ?_, ?_⟩
  · exact (calendar_walk_termination.1 [5] 10 (by decide)).mpr ⟨5, by decide, by decide⟩
  · exact (calendar_walk_termination.2.1 [5] 1 (by decide)).mpr ⟨5, by decide, by decide⟩
  · exact calendar_walk_termination.2.2.1 [5] 7 10 0 (by decide)
  · exact calendar_walk_termination.2.2.2 [99] 7 10 3 (by decide)

/-- A bar fixture with the given date and close (other fields zero). -/
def mkBar (dt : ℤ) (c : ℚ) : Bar :=
  ⟨dt, 0, 0, 0, c, 0, 0⟩

/-- C3.  `get_rates` run with `threshold = forwardDays + 1` and a
`stock_column` of `forwardDays + 2` cells computes exactly the spec's
scorer: skip (no record) when fewer than two bars remain on/after the
entry date within the truncation, else the rounded cumulative percent
returns relative to the first remaining bar's close, padded with
absent values; on the spec's example — closes 10, 11, 9 from the entry
date on, `forwardDays = 2` — it yields `day_1 = 10.0`,
`day_2 = -10.0`. -/
theorem backtest_get_rates_matches_spec :
    (∀ (entry : ℤ) (code : ℕ) (series : List Bar) (forwardDays : ℕ),
      get_rates entry code (some series) (forwardDays + 2) (forwardDays + 1) =
        (backtestScorerSpec entry series forwardDays).map
          (fun days => ⟨entry, code, days⟩)) ∧
    get_rates 0 7 (some [mkBar 0 10, mkBar 1 11, mkBar 2 9]) 4 3 =
      some ⟨0, 7, [some 10, some (-10)]⟩ := by
  constructor
  · intro entry code series forwardDays
    simp only [get_rates, backtestScorerSpec]
    by_cases h :
        ((series.filter fun b => decide (entry ≤ b.date)).take (forwardDays + 1)).length ≤ 1
    · rw [if_pos h, if_pos (by omega)]
      rfl
    · rw [if_neg h, if_neg (by omega)]
      cases hh : ((series.filter fun b => decide (entry ≤ b.date)).take (forwardDays + 1)).head? with
      | none =>
        rw [List.head?_eq_none_iff] at hh
        rw [hh] at h
        simp at h
      | some b0 =>
        simp only [Option.map_some']
        have hv : (((series.filter fun b => decide (entry ≤ b.date)).take
              (forwardDays + 1)).map
                (fun b => round2 (100 * (b.close - b0.close) / b0.close))).drop 1 =
            (((series.filter fun b => decide (entry ≤ b.date)).take
              (forwardDays + 1)).drop 1).map
                (fun b => round2 (100 * (b.close - b0.close) / b0.close)) := by
          rw [List.map_drop]
        rw [hv, List.map_map]
        congr 2
        simp only [List.length_map, List.length_drop]
        congr 1
        congr 1
        omega
  · norm_num [get_rates, mkBar, round2, roundHalfEven, Int.even_iff]
    norm_num [Int.fract]

/-- 60-bar fixture with strictly increasing, all-negative closes
`-60, -59, …, -1` (dates `0…59`). -/
def negSeries : List Bar :=
  [mkBar 0 (-60), mkBar 1 (-59), mkBar 2 (-58), mkBar 3 (-57), mkBar 4 (-56), mkBar 5 (-55), mkBar 6 (-54), mkBar 7 (-53), mkBar 8 (-52), mkBar 9 (-51), mkBar 10 (-50), mkBar 11 (-49), mkBar 12 (-48), mkBar 13 (-47), mkBar 14 (-46), mkBar 15 (-45), mkBar 16 (-44), mkBar 17 (-43), mkBar 18 (-42), mkBar 19 (-41), mkBar 20 (-40), mkBar 21 (-39), mkBar 22 (-38), mkBar 23 (-37), mkBar 24 (-36), mkBar 25 (-35), mkBar 26 (-34), mkBar 27 (-33), mkBar 28 (-32), mkBar 29 (-31), mkBar 30 (-30), mkBar 31 (-29), mkBar 32 (-28), mkBar 33 (-27), mkBar 34 (-26), mkBar 35 (-25), mkBar 36 (-24), mkBar 37 (-23), mkBar 38 (-22), mkBar 39 (-21), mkBar 40 (-20), mkBar 41 (-19), mkBar 42 (-18), mkBar 43 (-17), mkBar 44 (-16), mkBar 45 (-15), mkBar 46 (-14), mkBar 47 (-13), mkBar 48 (-12), mkBar 49 (-11), mkBar 50 (-10), mkBar 51 (-9), mkBar 52 (-8), mkBar 53 (-7), mkBar 54 (-6), mkBar 55 (-5), mkBar 56 (-4), mkBar 57 (-3), mkBar 58 (-2), mkBar 59 (-1)]

/-- 60-bar fixture with strictly increasing positive closes
`1, 2, …, 60` (dates `0…59`). -/
def posSeries : List Bar :=
  [mkBar 0 1, mkBar 1 2, mkBar 2 3, mkBar 3 4, mkBar 4 5, mkBar 5 6, mkBar 6 7, mkBar 7 8, mkBar 8 9, mkBar 9 10, mkBar 10 11, mkBar 11 12, mkBar 12 13, mkBar 13 14, mkBar 14 15, mkBar 15 16, mkBar 16 17, mkBar 17 18, mkBar 18 19, mkBar 19 20, mkBar 20 21, mkBar 21 22, mkBar 22 23, mkBar 23 24, mkBar 24 25, mkBar 25 26, mkBar 26 27, mkBar 27 28, mkBar 28 29, mkBar 29 30, mkBar 30 31, mkBar 31 32, mkBar 32 33, mkBar 33 34, mkBar 34 35, mkBar 35 36, mkBar 36 37, mkBar 37 38, mkBar 38 39, mkBar 39 40, mkBar 40 41, mkBar 41 42, mkBar 42 43, mkBar 43 44, mkBar 44 45, mkBar 45 46, mkBar 46 47, mkBar 47 48, mkBar 48 49, mkBar 49 50, mkBar 50 51, mkBar 51 52, mkBar 52 53, mkBar 53 54, mkBar 54 55, mkBar 55 56, mkBar 56 57, mkBar 57 58, mkBar 58 59, mkBar 59 60]

/-- Comparing against the turtle fold: the running maximum seeded at
`init` stays at most `c` iff the seed and every close do. -/
theorem le_foldl_close_max_iff (c : ℚ) (xs : List Bar) :
    ∀ init : ℚ,
      xs.foldl (fun m b => if m < b.close then b.close else m) init ≤ c ↔
        init ≤ c ∧ ∀ b ∈ xs, b.close ≤ c := by
  induction xs with
  | nil =>
    intro init
    simp
  | cons x rest ih =>
    intro init
    rw [List.foldl_cons, ih]
    by_cases hx : init < x.close
    · rw [if_pos hx]
      constructor
      · rintro ⟨h1, h2⟩
        refine ⟨le_trans (le_of_lt hx) h1, ?_⟩
        intro b hb
        rcases List.mem_cons.mp hb with rfl | hb
        · exact h1
        · exact h2 b hb
      · rintro ⟨h1, h2⟩
        exact ⟨h2 x (List.mem_cons_self x rest),
          fun b hb => h2 b (List.mem_cons_of_mem x hb)⟩
    · rw [if_neg hx]
      push_neg at hx
      constructor
      · rintro ⟨h1, h2⟩
        refine ⟨h1, ?_⟩
        intro b hb
        rcases List.mem_cons.mp hb with rfl | hb
        · exact le_trans hx h1
        · exact h2 b hb
      · rintro ⟨h1, h2⟩
        exact ⟨h1, fun b hb => h2 b (List.mem_cons_of_mem x hb)⟩

/-- C4, counterexample.  On a 60-bar series whose closes are strictly
increasing but all negative, the last close `-1` *is* the maximum
close of the trailing 60-bar window, yet `check_enter` answers
`False`: its running maximum is seeded at `0`, so the comparison is
against `max(0, closes)`, not against the window maximum. -/
theorem turtle_negative_close_counterexample :
    check_enter 100 negSeries none 60 = .ok false ∧
    List.Chain' (· < ·) (negSeries.map (fun b => b.close)) ∧
    (tailN 60 (maskBars 100 none negSeries)).getLast? = some (mkBar 59 (-1)) ∧
    (∀ b ∈ tailN 60 (maskBars 100 none negSeries), b.close ≤ (mkBar 59 (-1)).close) := by
  refine ⟨?_, ?_, ?_, ?_⟩
  · norm_num [check_enter, maskBars, tailN, negSeries, mkBar]
  · norm_num [negSeries, mkBar]
  · norm_num [maskBars, tailN, negSeries, mkBar]
  · norm_num [maskBars, tailN, negSeries, mkBar]

/-- C4, amended.  For a masked series of at least `threshold ≥ 1`
bars, the turtle predicate answers `True` iff the last bar's close is
at least every close of the trailing `threshold`-bar window *and* at
least `0` (the fold's seed).  For price data (positive closes) this is
exactly "the last close is the window maximum"; with non-positive
closes the seed can override the window maximum. -/
theorem turtle_check_enter_amended (codeDate : ℤ) (data : List Bar)
    (dateArg : Option ℤ) (threshold : ℕ) (_h1 : 1 ≤ threshold)
    (h2 : threshold ≤ (maskBars codeDate dateArg data).length)
    (last : Bar)
    (hlast : (tailN threshold (maskBars codeDate dateArg data)).getLast? = some last) :
    check_enter codeDate data dateArg threshold = .ok true ↔
      ((∀ b ∈ tailN threshold (maskBars codeDate dateArg data),
          b.close ≤ last.close) ∧ 0 ≤ last.close) := by
  simp only [check_enter]
  rw [if_neg (by omega), hlast]
  simp only [Except.ok.injEq, decide_eq_true_eq]
  rw [le_foldl_close_max_iff]
  exact and_comm

/-- Witness for C4's amended theorem: the strictly increasing positive
60-bar series is accepted by the turtle predicate. -/
theorem turtle_check_enter_amended_witness :
    check_enter 100 posSeries none 60 = .ok true := by
  have h := turtle_check_enter_amended 100 posSeries none 60 (by norm_num)
    (by norm_num [maskBars, posSeries, mkBar])
    (mkBar 59 60) (by norm_num [maskBars, tailN, posSeries, mkBar])
  refine h.mpr ⟨?_, by norm_num [mkBar]⟩
  norm_num [maskBars, tailN, posSeries, mkBar]

/-- C6.  Every registered strategy predicate fails closed: given a
masked series shorter than its minimum window (`check_enter` 60,
`check_volume` 61, platform breakout 60, pullback-to-MA250 250,
MA-alignment 30, parking apron 15, high-tight-flag 60 for any `istop`,
low-volatility growth 250, no-deep-drawdown 60, volume-climax 61 —
each at its registry-default window arguments), it returns `False`
and raises nothing. -/
theorem strategies_fail_closed_below_min :
    (∀ (codeDate : ℤ) (data : List Bar) (dateArg : Option ℤ),
      (maskBars codeDate dateArg data).length < 60 →
        check_enter codeDate data dateArg 60 = .ok false) ∧
    (∀ (codeDate : ℤ) (data : List Bar) (dateArg : Option ℤ),
      (maskBars codeDate dateArg data).length < 61 →
        check_volume codeDate data dateArg 60 = .ok false) ∧
    (∀ (codeDate : ℤ) (data : List Bar) (dateArg : Option ℤ),
      (maskBars codeDate dateArg data).length < 60 →
        breakthrough_platform_check codeDate data dateArg 60 = .ok false) ∧
    (∀ (codeDate : ℤ) (data : List Bar) (dateArg : Option ℤ),
      (maskBars codeDate dateArg data).length < 250 →
        backtrace_ma250_check codeDate data dateArg 60 = .ok false) ∧
    (∀ (codeDate : ℤ) (data : List Bar) (dateArg : Option ℤ),
      (maskBars codeDate dateArg data).length < 30 →
        keep_increasing_check codeDate data dateArg 30 = .ok false) ∧
    (∀ (codeDate : ℤ) (data : List Bar) (dateArg : Option ℤ),
      (maskBars codeDate dateArg data).length < 15 →
        parking_apron_check codeDate data dateArg 15 = .ok false) ∧
    (∀ (codeDate : ℤ) (data : List Bar) (dateArg : Option ℤ) (istop : Bool),
      (maskBars codeDate dateArg data).length < 60 →
        check_high_tight codeDate data dateArg 60 istop = .ok false) ∧
    (∀ (codeDate : ℤ) (data : List Bar) (dateArg : Option ℤ),
      (maskBars codeDate dateArg data).length < 250 →
        check_low_increase codeDate data dateArg 250 10 = .ok false) ∧
    (∀ (codeDate : ℤ) (data : List Bar) (dateArg : Option ℤ),
      (maskBars codeDate dateArg data).length < 60 →
        low_backtrace_increase_check codeDate data dateArg 60 = .ok false) ∧
    (∀ (codeDate : ℤ) (data : List Bar) (dateArg : Option ℤ),
      (maskBars codeDate dateArg data).length < 61 →
        climax_limitdown_check codeDate data dateArg 60 = .ok false) := by
  refine ⟨?_, ?_, ?_, ?_, ?_, ?_, ?_, ?_, ?_, ?_⟩
  · intro codeDate data dateArg h
    simp only [check_enter]
    rw [if_pos (by omega)]
  · intro codeDate data dateArg h
    simp only [check_volume]
    by_cases h60 : (maskBars codeDate dateArg data).length < 60
    · rw [if_pos h60]
    · rw [if_neg h60]
      have hlen : (maskBars codeDate dateArg data).length = 60 := by omega
      cases hgl : (maskBars codeDate dateArg data).getLast? with
      | none =>
        rw [List.getLast?_eq_none_iff] at hgl
        rw [hgl] at hlen
        simp at hlen
      | some lb =>
        dsimp only
        by_cases hpc : lb.p_change < 2 ∨ lb.close < lb.openv
        · rw [if_pos hpc]
        · rw [if_neg hpc]
          rw [if_pos ?len]
          case len =>
            simp only [tailN, sma, List.length_drop, List.length_zip,
              List.length_map, List.length_range, hlen]
            omega
  · intro codeDate data dateArg h
    simp only [breakthrough_platform_check]
    rw [if_pos (by omega)]
  · intro codeDate data dateArg h
    simp only [backtrace_ma250_check]
    rw [if_pos (by omega)]
  · intro codeDate data dateArg h
    simp only [keep_increasing_check]
    rw [if_pos (by omega)]
  · intro codeDate data dateArg h
    simp only [parking_apron_check]
    rw [if_pos (by omega)]
  · intro codeDate data dateArg istop h
    cases istop <;> simp [check_high_tight, h]
  · intro codeDate data dateArg h
    simp only [check_low_increase]
    rw [if_pos (by omega)]
  · intro codeDate data dateArg h
    simp only [low_backtrace_increase_check]
    rw [if_pos (by omega)]
  · intro codeDate data dateArg h
    simp only [climax_limitdown_check]
    by_cases h60 : (maskBars codeDate dateArg data).length < 60
    · rw [if_pos h60]
    · rw [if_neg h60]
      have hlen : (maskBars codeDate dateArg data).length = 60 := by omega
      cases hgl : (maskBars codeDate dateArg data).getLast? with
      | none =>
        rw [List.getLast?_eq_none_iff] at hgl
        rw [hgl] at hlen
        simp at hlen
      | some lb =>
        dsimp only
        by_cases hpc : (-(95/10) : ℚ) < lb.p_change
        · rw [if_pos hpc]
        · rw [if_neg hpc]
          rw [if_pos ?len2]
          case len2 =>
            simp only [tailN, sma, List.length_drop, List.length_zip,
              List.length_map, List.length_range, hlen]
            omega

/-- Witness for C6: every predicate evaluated on the empty series (0
bars, below every minimum window) answers `False` without raising. -/
theorem strategies_fail_closed_below_min_witness :
    check_enter 5 [] none 60 = .ok false ∧
    check_volume 5 [] none 60 = .ok false ∧
    breakthrough_platform_check 5 [] none 60 = .ok false ∧
    backtrace_ma250_check 5 [] none 60 = .ok false ∧
    keep_increasing_check 5 [] none 30 = .ok false ∧
    parking_apron_check 5 [] none 15 = .ok false ∧
    check_high_tight 5 [] none 60 true = .ok false ∧
    check_low_increase 5 [] none 250 10 = .ok false ∧
    low_backtrace_increase_check 5 [] none 60 = .ok false ∧
    climax_limitdown_check 5 [] none 60 = .ok false := by
  have h := strategies_fail_closed_below_min
  refine ⟨h.1 5 [] none (by simp [maskBars]),
    h.2.1 5 [] none (by simp [maskBars]),
    h.2.2.1 5 [] none (by simp [maskBars]),
    h.2.2.2.1 5 [] none (by simp [maskBars]),
    h.2.2.2.2.1 5 [] none (by simp [maskBars]),
    h.2.2.2.2.2.1 5 [] none (by simp [maskBars]),
    h.2.2.2.2.2.2.1 5 [] none true (by simp [maskBars]),
    h.2.2.2.2.2.2.2.1 5 [] none (by simp [maskBars]),
    h.2.2.2.2.2.2.2.2.1 5 [] none (by simp [maskBars]),
    h.2.2.2.2.2.2.2.2.2 5 [] none (by simp [maskBars])⟩

/-- A bar fixture for the volume-surge examples: date, open, close,
volume, percent change (high/low zero). -/
def volBar (dt : ℤ) (o c v p : ℚ) : Bar :=
  ⟨dt, o, 0, 0, c, v, p⟩

/-- 61-bar fixture: uniform volume 10,000,000 except a 100,000,000
spike at bar 55 (six bars from the end), and a last bar with open 10,
close 10.3, volume 30,000,000, percent change +3. -/
def cvSeries : List Bar :=
  [volBar 0 1 1 10000000 0, volBar 1 1 1 10000000 0, volBar 2 1 1 10000000 0, volBar 3 1 1 10000000 0, volBar 4 1 1 10000000 0, volBar 5 1 1 10000000 0, volBar 6 1 1 10000000 0, volBar 7 1 1 10000000 0, volBar 8 1 1 10000000 0, volBar 9 1 1 10000000 0, volBar 10 1 1 10000000 0, volBar 11 1 1 10000000 0, volBar 12 1 1 10000000 0, volBar 13 1 1 10000000 0, volBar 14 1 1 10000000 0, volBar 15 1 1 10000000 0, volBar 16 1 1 10000000 0, volBar 17 1 1 10000000 0, volBar 18 1 1 10000000 0, volBar 19 1 1 10000000 0, volBar 20 1 1 10000000 0, volBar 21 1 1 10000000 0, volBar 22 1 1 10000000 0, volBar 23 1 1 10000000 0, volBar 24 1 1 10000000 0, volBar 25 1 1 10000000 0, volBar 26 1 1 10000000 0, volBar 27 1 1 10000000 0, volBar 28 1 1 10000000 0, volBar 29 1 1 10000000 0, volBar 30 1 1 10000000 0, volBar 31 1 1 10000000 0, volBar 32 1 1 10000000 0, volBar 33 1 1 10000000 0, volBar 34 1 1 10000000 0, volBar 35 1 1 10000000 0, volBar 36 1 1 10000000 0, volBar 37 1 1 10000000 0, volBar 38 1 1 10000000 0, volBar 39 1 1 10000000 0, volBar 40 1 1 10000000 0, volBar 41 1 1 10000000 0, volBar 42 1 1 10000000 0, volBar 43 1 1 10000000 0, volBar 44 1 1 10000000 0, volBar 45 1 1 10000000 0, volBar 46 1 1 10000000 0, volBar 47 1 1 10000000 0, volBar 48 1 1 10000000 0, volBar 49 1 1 10000000 0, volBar 50 1 1 10000000 0, volBar 51 1 1 10000000 0, volBar 52 1 1 10000000 0, volBar 53 1 1 10000000 0, volBar 54 1 1 10000000 0, volBar 55 1 1 100000000 0, volBar 56 1 1 10000000 0, volBar 57 1 1 10000000 0, volBar 58 1 1 10000000 0, volBar 59 1 1 10000000 0, volBar 60 10 (103/10) 30000000 3]

/-- 61-bar fixture: uniform volume 10,000,000, and the spec's example
last bar — open 10, close 10.3, volume 30,000,000, change +3. -/
def cvUniform : List Bar :=
  [volBar 0 1 1 10000000 0, volBar 1 1 1 10000000 0, volBar 2 1 1 10000000 0, volBar 3 1 1 10000000 0, volBar 4 1 1 10000000 0, volBar 5 1 1 10000000 0, volBar 6 1 1 10000000 0, volBar 7 1 1 10000000 0, volBar 8 1 1 10000000 0, volBar 9 1 1 10000000 0, volBar 10 1 1 10000000 0, volBar 11 1 1 10000000 0, volBar 12 1 1 10000000 0, volBar 13 1 1 10000000 0, volBar 14 1 1 10000000 0, volBar 15 1 1 10000000 0, volBar 16 1 1 10000000 0, volBar 17 1 1 10000000 0, volBar 18 1 1 10000000 0, volBar 19 1 1 10000000 0, volBar 20 1 1 10000000 0, volBar 21 1 1 10000000 0, volBar 22 1 1 10000000 0, volBar 23 1 1 10000000 0, volBar 24 1 1 10000000 0, volBar 25 1 1 10000000 0, volBar 26 1 1 10000000 0, volBar 27 1 1 10000000 0, volBar 28 1 1 10000000 0, volBar 29 1 1 10000000 0, volBar 30 1 1 10000000 0, volBar 31 1 1 10000000 0, volBar 32 1 1 10000000 0, volBar 33 1 1 10000000 0, volBar 34 1 1 10000000 0, volBar 35 1 1 10000000 0, volBar 36 1 1 10000000 0, volBar 37 1 1 10000000 0, volBar 38 1 1 10000000 0, volBar 39 1 1 10000000 0, volBar 40 1 1 10000000 0, volBar 41 1 1 10000000 0, volBar 42 1 1 10000000 0, volBar 43 1 1 10000000 0, volBar 44 1 1 10000000 0, volBar 45 1 1 10000000 0, volBar 46 1 1 10000000 0, volBar 47 1 1 10000000 0, volBar 48 1 1 10000000 0, volBar 49 1 1 10000000 0, volBar 50 1 1 10000000 0, volBar 51 1 1 10000000 0, volBar 52 1 1 10000000 0, volBar 53 1 1 10000000 0, volBar 54 1 1 10000000 0, volBar 55 1 1 10000000 0, volBar 56 1 1 10000000 0, volBar 57 1 1 10000000 0, volBar 58 1 1 10000000 0, volBar 59 1 1 10000000 0, volBar 60 10 (103/10) 30000000 3]

/-- Definition following the spec's words for C5's volume-surge
conditions: last-bar percent change at least 2, close at least open,
turnover (close·volume) at least 2·10⁸, and last-bar volume at least
twice the trailing 5-bar average volume — the average of the *last
five* bars, the last bar included, as "trailing window ending at
asOfDate" means throughout the spec. -/
def volumeSurgeSpec (d : List Bar) : Bool :=
  match d.getLast? with
  | none => false
  | some last =>
    decide (2 ≤ last.p_change) && decide (last.openv ≤ last.close) &&
    decide ((200000000 : ℚ) ≤ last.close * last.volume) &&
    decide (2 ≤ last.volume / (((tailN 5 d).map (fun b => b.volume)).sum / 5))

/-- C5, counterexample.  On `cvSeries` all four of the claim's
conditions hold (the trailing 5-bar average including the last bar is
14,000,000, ratio 15/7 ≥ 2), yet `check_volume` answers `False`: the
source reads the 5-bar average ending one bar *before* the last
(`tail(61).head(60).iloc[-1]`), which the bar-55 spike raises to
28,000,000, ratio 15/14 < 2. -/
theorem volume_surge_window_counterexample :
    check_volume 60 cvSeries none 60 = .ok false ∧
    volumeSurgeSpec (maskBars 60 none cvSeries) = true := by
  constructor
  · norm_num [check_volume, cvSeries, maskBars, tailN, sma, volBar, List.range_succ]
  · norm_num [volumeSurgeSpec, cvSeries, maskBars, tailN, volBar]

/-- `tail(n)` keeps `min n len` rows. -/
theorem tailN_length {α : Type} (n : ℕ) (l : List α) :
    (tailN n l).length = min n l.length := by
  simp only [tailN, List.length_drop]
  omega

/-- Element lookup in the moving-average column. -/
theorem sma_getElem? (p : ℕ) (xs : List ℚ) (i : ℕ) (h : i < xs.length) :
    (sma p xs)[i]? =
      some (if i + 1 < p then 0 else ((xs.drop (i + 1 - p)).take p).sum / p) := by
  simp [sma, List.getElem?_range h]

/-- The 5-bar volume average the source actually uses for the ratio:
the `vol_ma5` of the row one before the last, i.e. the mean volume of
the last five bars of `dropLast`. -/
def prevBarVol5 (d : List Bar) : ℚ :=
  (((d.dropLast).drop (d.dropLast.length - 5)).map (fun b => b.volume)).sum / 5

/-- C5, amended.  For a masked series of at least 61 bars (the true
minimum: `tail(threshold+1)` must be full), `check_volume` answers
`True` iff the last bar has percent change ≥ 2, close ≥ open,
close·volume ≥ 2·10⁸, and volume at least twice the 5-bar average
ending one bar *before* the last (`prevBarVol5`); a zero average
follows the source's IEEE division (`inf`/`nan`). -/
theorem volume_surge_amended (codeDate : ℤ) (data : List Bar)
    (dateArg : Option ℤ) (h : 61 ≤ (maskBars codeDate dateArg data).length)
    (last : Bar) (hlast : (maskBars codeDate dateArg data).getLast? = some last) :
    check_volume codeDate data dateArg 60 = .ok true ↔
      (2 ≤ last.p_change ∧ last.openv ≤ last.close ∧
        (200000000 : ℚ) ≤ last.close * last.volume ∧
        (if prevBarVol5 (maskBars codeDate dateArg data) = 0 then 0 < last.volume
         else 2 ≤ last.volume / prevBarVol5 (maskBars codeDate dateArg data))) := by
  simp only [check_volume, Nat.reduceAdd]
  set d := maskBars codeDate dateArg data with hd
  set xs := d.map (fun b => b.volume) with hxs
  set rows := d.zip (sma 5 xs) with hrows
  have hxs_len : xs.length = d.length := by
    rw [hxs, List.length_map]
  have hsma_len : (sma 5 xs).length = d.length := by
    simp only [sma, List.length_map, List.length_range, hxs_len]
  have hrows_len : rows.length = d.length := by
    rw [hrows, List.length_zip, hsma_len, min_self]
  have ht_len : (tailN 61 rows).length = 61 := by
    rw [tailN_length, hrows_len]
    omega
  have hd_elem : d[d.length - 1]? = some last := by
    rw [List.getLast?_eq_getElem?] at hlast
    exact hlast
  have hsma_last : (sma 5 xs)[d.length - 1]? =
      some (((xs.drop (d.length - 5)).take 5).sum / 5) := by
    have h1 := sma_getElem? 5 xs (d.length - 1) (by omega)
    rw [if_neg (by omega)] at h1
    have e : d.length - 1 + 1 - 5 = d.length - 5 := by omega
    rw [e] at h1
    exact h1
  have hrows_last : rows[d.length - 1]? =
      some (last, ((xs.drop (d.length - 5)).take 5).sum / 5) := by
    rw [hrows, List.getElem?_zip_eq_some]
    exact ⟨hd_elem, hsma_last⟩
  have ht_last : (tailN 61 rows).getLast? =
      some (last, ((xs.drop (d.length - 5)).take 5).sum / 5) := by
    rw [List.getLast?_eq_getElem?, ht_len]
    show (tailN 61 rows)[60]? = _
    simp only [tailN]
    rw [List.getElem?_drop]
    have e : rows.length - 61 + 60 = d.length - 1 := by
      rw [hrows_len]
      omega
    rw [e, hrows_last]
  obtain ⟨pb, hpb⟩ : ∃ pb, d[d.length - 2]? = some pb :=
    ⟨_, List.getElem?_eq_getElem (by omega)⟩
  have hsma_prev : (sma 5 xs)[d.length - 2]? =
      some (((xs.drop (d.length - 6)).take 5).sum / 5) := by
    have h1 := sma_getElem? 5 xs (d.length - 2) (by omega)
    rw [if_neg (by omega)] at h1
    have e : d.length - 2 + 1 - 5 = d.length - 6 := by omega
    rw [e] at h1
    exact h1
  have hrows_prev : rows[d.length - 2]? =
      some (pb, ((xs.drop (d.length - 6)).take 5).sum / 5) := by
    rw [hrows, List.getElem?_zip_eq_some]
    exact ⟨hpb, hsma_prev⟩
  have htake_last : ((tailN 61 rows).take 60).getLast? =
      some (pb, ((xs.drop (d.length - 6)).take 5).sum / 5) := by
    rw [List.getLast?_eq_getElem?]
    have hl : ((tailN 61 rows).take 60).length = 60 := by
      rw [List.length_take, ht_len]
      omega
    rw [hl]
    show ((tailN 61 rows).take 60)[59]? = _
    rw [List.getElem?_take_of_lt (by norm_num)]
    simp only [tailN]
    rw [List.getElem?_drop]
    have e : rows.length - 61 + 59 = d.length - 2 := by
      rw [hrows_len]
      omega
    rw [e, hrows_prev]
  have hmean : prevBarVol5 d = ((xs.drop (d.length - 6)).take 5).sum / 5 := by
    unfold prevBarVol5
    rw [List.dropLast_eq_take, List.length_take]
    have e1 : min (d.length - 1) d.length - 5 = d.length - 6 := by omega
    rw [e1, List.drop_take]
    have e2 : d.length - 1 - (d.length - 6) = 5 := by omega
    rw [e2]
    have e3 : ((d.drop (d.length - 6)).take 5).map (fun b => b.volume) =
        (xs.drop (d.length - 6)).take 5 := by
      rw [hxs, ← List.map_drop, ← List.map_take]
    rw [e3]
  rw [if_neg (by omega), hlast]
  dsimp only
  by_cases hpc : last.p_change < 2 ∨ last.close < last.openv
  · rw [if_pos hpc]
    constructor
    · intro hcontra
      simp at hcontra
    · rintro ⟨hp, ho, -, -⟩
      exfalso
      rcases hpc with hpc | hpc
      · exact absurd hp (not_le.mpr hpc)
      · exact absurd ho (not_le.mpr hpc)
  · rw [if_neg hpc]
    push_neg at hpc
    obtain ⟨hp, ho⟩ := hpc
    rw [if_neg (by rw [ht_len]; omega), ht_last]
    dsimp only
    by_cases hamt : last.close * last.volume < 200000000
    · rw [if_pos hamt]
      constructor
      · intro hcontra
        simp at hcontra
      · rintro ⟨-, -, hge, -⟩
        exact absurd hge (not_le.mpr hamt)
    · rw [if_neg hamt]
      rw [htake_last]
      dsimp only
      push_neg at hamt
      rw [hmean]
      by_cases hz : ((xs.drop (d.length - 6)).take 5).sum / 5 = 0
      · rw [if_pos hz, if_pos hz]
        simp only [Except.ok.injEq, decide_eq_true_eq]
        constructor
        · intro hv
          exact ⟨hp, ho, hamt, hv⟩
        · rintro ⟨-, -, -, hv⟩
          exact hv
      · rw [if_neg hz, if_neg hz]
        simp only [Except.ok.injEq, decide_eq_true_eq]
        constructor
        · intro hv
          exact ⟨hp, ho, hamt, hv⟩
        · rintro ⟨-, -, -, hv⟩
          exact hv

/-- Witness for C5's amended theorem: the spec's example series with
uniform prior volume — last bar open 10, close 10.3, volume
30,000,000 (3× the 5-bar average 10,000,000), turnover 3.09·10⁸ — is
accepted. -/
theorem volume_surge_amended_witness :
    check_volume 60 cvUniform none 60 = .ok true := by
  have hpv : prevBarVol5 (maskBars 60 none cvUniform) = 10000000 := by
    norm_num [prevBarVol5, maskBars, cvUniform, volBar]
  have h := volume_surge_amended 60 cvUniform none
    (by norm_num [maskBars, cvUniform, volBar])
    (volBar 60 10 (103/10) 30000000 3)
    (by norm_num [maskBars, cvUniform, volBar])
  refine h.mpr ⟨by norm_num [volBar], by norm_num [volBar], by norm_num [volBar], ?_⟩
  rw [hpv]
  norm_num [volBar]
